import Mathlib

/-!
Verification of the quota/session core of the Telegram chat bot (src/bot.py).

Modeling conventions:

- Python strings are modeled as `List Char`.
- The `datetime` instants used by the quota logic are modeled as `Nat`
  (microseconds since an epoch): `datetime` comparison becomes `Nat`
  comparison and `timedelta(days=1)` addition becomes adding `oneDay`.
  The calendar-field form of a `datetime`, which `isoformat` and
  `datetime.fromisoformat` operate on, is modeled separately for the
  persistence layer (`DateTime` below).
- The OpenAI call is modeled by its outcome: `some content` when the
  request succeeds with raw text `content`, `none` when it raises.
- The persistence write performed by `save_counters` is modeled by a
  boolean outcome `flushOk` (`false` means `open`/`json.dump` raised).
- `USER_COUNTERS` (a dict) is modeled as an association list threaded
  through the functions; `TRANSLATE_MODE_USERS` (a set) as a duplicate
  free list of user ids.
-/

abbrev UserId := String

/-- One value of the `USER_COUNTERS` dict: `{"count": ..., "reset_time": ...}`
(bot.py line 93), with the `datetime` as microseconds since an epoch. -/
structure UserData where
  count : Nat
  resetTime : Nat
  deriving DecidableEq

abbrev Counters := List (UserId × UserData)

/-- Dict lookup `USER_COUNTERS.get(user_id)`. -/
def lookupUser : Counters → UserId → Option UserData
  | [], _ => none
  | (v, d) :: rest, u => if v = u then some d else lookupUser rest u

/-- Dict assignment `USER_COUNTERS[user_id] = ...` (replace or insert). -/
def setUser : Counters → UserId → UserData → Counters
  | [], u, d => [(u, d)]
  | (v, e) :: rest, u, d => if v = u then (u, d) :: rest else (v, e) :: setUser rest u d

/-- Set insertion `TRANSLATE_MODE_USERS.add(user_id)` (bot.py line 84). -/
def insertUser (u : UserId) (tu : List UserId) : List UserId :=
  if u ∈ tu then tu else u :: tu

/-- Daily message limit (bot.py line 30). -/
def DAILY_LIMIT : Nat := 50

/-- `timedelta(days=1)` in microseconds. -/
def oneDay : Nat := 24 * 60 * 60 * 1000000

/-- Cache for greetings (bot.py lines 22-27). -/
def CACHE : List (List Char × List Char) :=
  [("hi".data, "Hello! How can I assist you today?".data),
   ("hello".data, "Hello! How can I assist you today?".data),
   ("thanks".data, "You\x27re welcome! 😊".data),
   ("thank you".data, "You\x27re welcome! 😊".data)]

/-- Dict membership plus indexing for `CACHE`: `key in CACHE` / `CACHE[key]`. -/
def cacheLookup : List (List Char × List Char) → List Char → Option (List Char)
  | [], _ => none
  | (k, v) :: rest, key => if k = key then some v else cacheLookup rest key

/-- The limit-reached notice sent by both handlers (bot.py lines 80-82, 132-134). -/
def limitNotice : List Char :=
  ("⚠️ You have reached your daily limit of " ++ toString DAILY_LIMIT ++
    " messages. Please try again tomorrow.").data

/-- The fixed apology returned when the OpenAI call raises (bot.py line 124). -/
def apology : List Char :=
  "⚠️ Sorry, I\x27m busy right now. Try again later.".data

/-- The prompt sent by `/translate` (bot.py line 85). -/
def translateAsk : List Char :=
  "🌐 Send me the text you want to translate (English ↔ Khmer):".data

/-- The instruction prepended to a translation-turn message (bot.py line 154). -/
def translateWrap : List Char :=
  "Translate this text to Khmer and English: ".data

/-- ASCII lowercasing of one character, as Python `str.lower` does on ASCII. -/
def pyLowerChar (c : Char) : Char :=
  if 'A' ≤ c ∧ c ≤ 'Z' then Char.ofNat (c.toNat + 32) else c

/-- Python `str.lower()` (the texts involved are ASCII). -/
def pyLower (cs : List Char) : List Char := cs.map pyLowerChar

/-- Python whitespace for `str.strip()`: space, tab, newline, carriage return,
vertical tab, form feed. -/
def isPySpace (c : Char) : Bool :=
  c = ' ' || c = '\t' || c = '\n' || c = '\r' || c = Char.ofNat 11 || c = Char.ofNat 12

/-- Python `str.strip()`: trim whitespace from both ends. -/
def pyStrip (cs : List Char) : List Char :=
  ((cs.dropWhile isPySpace).reverse.dropWhile isPySpace).reverse

/-- Python `text.replace("**", "")` (bot.py line 47): remove non-overlapping
occurrences of the two-star token, scanning left to right. -/
def stripBold : List Char → List Char
  | a :: b :: rest =>
    if a = '*' ∧ b = '*' then stripBold rest else a :: stripBold (b :: rest)
  | l => l

/-- The characters a tag body may contain: everything but the closing angle. -/
def tagBody (rest : List Char) : List Char := rest.takeWhile (fun x => x != '>')

/-- The input from the first closing angle on, if any. -/
def tagRest (rest : List Char) : List Char := rest.dropWhile (fun x => x != '>')

/-- Python `re.sub(r"<[^>]+>", "", text)` (bot.py line 48): drop every
leftmost non-overlapping match of an opening angle, one or more non-closing
characters, and a closing angle.  The fuel argument only bounds the
recursion; `fuel = cs.length` always suffices. -/
def stripTagsF : Nat → List Char → List Char
  | _, [] => []
  | 0, cs => cs
  | fuel + 1, c :: rest =>
    if c = '<' ∧ tagBody rest ≠ [] ∧ tagRest rest ≠ [] then
      stripTagsF fuel (tagRest rest).tail
    else
      c :: stripTagsF fuel rest

def stripTags (cs : List Char) : List Char := stripTagsF cs.length cs

/-- Checker used to state what tag removal achieves: does the text contain a
match of the tag pattern anywhere? -/
def containsTag : List Char → Bool
  | [] => false
  | c :: rest =>
    if c = '<' ∧ tagBody rest ≠ [] ∧ tagRest rest ≠ [] then true
    else containsTag rest

/-- Checker used to state what bold removal achieves: does the text contain
the two-star token anywhere? -/
def hasBold : List Char → Bool
  | a :: b :: rest => if a = '*' ∧ b = '*' then true else hasBold (b :: rest)
  | _ => false

/-- Sanitization of an AI reply (bot.py lines 46-49). -/
def clean_response (text : List Char) : List Char :=
  pyStrip (stripTags (stripBold text))

/-- The admission check (bot.py lines 88-101).  Returns the boolean result
together with the possibly mutated `USER_COUNTERS`. -/
def check_user_limit (c : Counters) (u : UserId) (now : Nat) : Bool × Counters :=
  match lookupUser c u with
  | some d =>
    if d.resetTime ≤ now then
      (true, setUser c u ⟨0, now + oneDay⟩)
    else if DAILY_LIMIT ≤ d.count then
      (false, c)
    else
      (true, c)
  | none => (true, setUser c u ⟨0, now + oneDay⟩)

/-- The commit step `USER_COUNTERS[user_id]["count"] += 1` (bot.py line 160).
Indexing a missing key raises, modeled by `none`. -/
def commitC (c : Counters) (u : UserId) : Option Counters :=
  match lookupUser c u with
  | some d => some (setUser c u ⟨d.count + 1, d.resetTime⟩)
  | none => none

/-- The OpenAI call wrapper (bot.py lines 115-124): on success the raw text
is sanitized, on any exception the fixed apology is returned. -/
def fetch_chatgpt_reply (ai : Option (List Char)) : List Char :=
  match ai with
  | some content => clean_response content
  | none => apology

/-- Everything observable about one run of the `chat` handler. -/
structure ChatResult where
  /-- Final `USER_COUNTERS`. -/
  counters : Counters
  /-- Final `TRANSLATE_MODE_USERS`. -/
  translateUsers : List UserId
  /-- The reply value the handler computed (the limit notice when rejected). -/
  reply : List Char
  /-- The prompt passed to the OpenAI call, or `none` if no call was made. -/
  aiPrompt : Option (List Char)
  /-- The ledger successfully written by `save_counters`, or `none` if the
  flush was not reached or raised. -/
  flushed : Option Counters
  /-- The text delivered to the user by `reply_text`, or `none` if the
  handler raised before sending. -/
  sent : Option (List Char)
  deriving DecidableEq

/-- The tail of the `chat` handler shared by the cache and AI paths
(bot.py lines 160-163): commit, flush, send.  A failing flush raises out of
the handler, so nothing is sent; the in-memory increment survives. -/
def finishCommit (c : Counters) (tu : List UserId) (reply : List Char)
    (prompt : Option (List Char)) (u : UserId) (flushOk : Bool) : Option ChatResult :=
  match commitC c u with
  | some c2 =>
    some ⟨c2, tu, reply, prompt, if flushOk then some c2 else none,
      if flushOk then some reply else none⟩
  | none => none

/-- What the `chat` handler has done by the time it awaits the OpenAI call. -/
inductive PhaseOne
  /-- The handler finished without awaiting the OpenAI call (rejected, or
  cache hit which runs commit/flush/send synchronously). -/
  | done : Option ChatResult → PhaseOne
  /-- The handler is suspended at the await: counters after the admission
  check, the `is_translate_mode` value read before the await, the prompt. -/
  | awaitAI : Counters → Bool → List Char → PhaseOne

/-- The `chat` handler up to the await of the OpenAI call
(bot.py lines 127-155). -/
def chat_phase1 (c : Counters) (tu : List UserId) (u : UserId) (msg : List Char)
    (now : Nat) (flushOk : Bool) : PhaseOne :=
  let r := check_user_limit c u now
  if r.1 = false then
    .done (some ⟨r.2, tu, limitNotice, none, none, some limitNotice⟩)
  else
    let isTr : Bool := decide (u ∈ tu)
    let key := pyStrip (pyLower msg)
    let prompt := if isTr then translateWrap ++ msg else msg
    match cacheLookup CACHE key with
    | some v =>
      if isTr then .awaitAI r.2 isTr prompt
      else .done (finishCommit r.2 tu v none u flushOk)
    | none => .awaitAI r.2 isTr prompt

/-- The `chat` handler from the resumption of the await on
(bot.py lines 155-163): clear the one-shot translation flag, commit, flush,
send. -/
def chat_phase2 (c : Counters) (tu : List UserId) (u : UserId) (isTr : Bool)
    (prompt : List Char) (ai : Option (List Char)) (flushOk : Bool) : Option ChatResult :=
  let reply := fetch_chatgpt_reply ai
  let tu2 := if isTr then tu.erase u else tu
  finishCommit c tu2 reply (some prompt) u flushOk

/-- One full sequential run of the `chat` handler (bot.py lines 127-163).
`none` models the handler raising without sending anything. -/
def chat (c : Counters) (tu : List UserId) (u : UserId) (msg : List Char)
    (now : Nat) (ai : Option (List Char)) (flushOk : Bool) : Option ChatResult :=
  match chat_phase1 c tu u msg now flushOk with
  | .done r => r
  | .awaitAI c1 isTr prompt => chat_phase2 c1 tu u isTr prompt ai flushOk

/-- The `/translate` handler (bot.py lines 77-85).  Returns the counters,
the translation-mode set and the reply text. -/
def translate_command (c : Counters) (tu : List UserId) (u : UserId) (now : Nat) :
    Counters × List UserId × List Char :=
  let r := check_user_limit c u now
  if r.1 = false then (r.2, tu, limitNotice)
  else (r.2, insertUser u tu, translateAsk)

/-- One inbound plain-text message together with the environment outcomes
(the OpenAI result and whether the flush write succeeds). -/
structure Msg where
  u : UserId
  text : List Char
  now : Nat
  ai : Option (List Char)
  flushOk : Bool

/-- Sequential processing of one message: the next handler starts only after
the previous one finished (the framework default of one update at a time). -/
def chatStep (s : Counters × List UserId) (e : Msg) : Counters × List UserId :=
  match chat s.1 s.2 e.u e.text e.now e.ai e.flushOk with
  | some r => (r.counters, r.translateUsers)
  | none => s

/-- Sequential processing of a whole trace from the initial empty state. -/
def runTrace (es : List Msg) : Counters × List UserId :=
  es.foldl chatStep ([], [])

/-- Two overlapping runs of the `chat` handler for the same user, interleaved
at the awaited OpenAI call: both admission checks run before either commit.
Nothing in the handler prevents this schedule: it holds no per-user lock
across the await. -/
def interleavedTwoSame (c : Counters) (tu : List UserId) (u : UserId)
    (m1 m2 : List Char) (now1 now2 : Nat) (ai1 ai2 : Option (List Char))
    (f1 f2 : Bool) : Option (ChatResult × ChatResult) :=
  match chat_phase1 c tu u m1 now1 f1 with
  | .awaitAI c1 isTr1 p1 =>
    match chat_phase1 c1 tu u m2 now2 f2 with
    | .awaitAI c2 isTr2 p2 =>
      match chat_phase2 c2 tu u isTr1 p1 ai1 f1 with
      | some r1 =>
        match chat_phase2 r1.counters r1.translateUsers u isTr2 p2 ai2 f2 with
        | some r2 => some (r1, r2)
        | none => none
      | none => none
    | _ => none
  | _ => none

/-- Calendar form of a Python `datetime`, the shape `isoformat` prints. -/
structure DateTime where
  year : Nat
  month : Nat
  day : Nat
  hour : Nat
  minute : Nat
  second : Nat
  microsecond : Nat
  deriving DecidableEq

/-- The invariants Python `datetime` maintains on its fields. -/
def DateTime.Valid (t : DateTime) : Prop :=
  1 ≤ t.year ∧ t.year ≤ 9999 ∧ 1 ≤ t.month ∧ t.month ≤ 12 ∧ 1 ≤ t.day ∧ t.day ≤ 31 ∧
    t.hour ≤ 23 ∧ t.minute ≤ 59 ∧ t.second ≤ 59 ∧ t.microsecond ≤ 999999

instance (t : DateTime) : Decidable t.Valid := by
  unfold DateTime.Valid
  infer_instance

/-- The decimal digit character for d (d below 10). -/
def digitChar (d : Nat) : Char := Char.ofNat (48 + d)

/-- The digit value of a decimal digit character. -/
def charDigit (c : Char) : Nat := c.toNat - 48

/-- Two-digit zero-padded decimal, as percent-02d. -/
def pad2 (n : Nat) : List Char := [digitChar (n / 10 % 10), digitChar (n % 10)]

/-- Four-digit zero-padded decimal, as percent-04d. -/
def pad4 (n : Nat) : List Char :=
  [digitChar (n / 1000 % 10), digitChar (n / 100 % 10), digitChar (n / 10 % 10),
   digitChar (n % 10)]

/-- Six-digit zero-padded decimal, as percent-06d. -/
def pad6 (n : Nat) : List Char :=
  [digitChar (n / 100000 % 10), digitChar (n / 10000 % 10), digitChar (n / 1000 % 10),
   digitChar (n / 100 % 10), digitChar (n / 10 % 10), digitChar (n % 10)]

/-- Python `datetime.isoformat()`: YYYY-MM-DDTHH:MM:SS, followed by a dot and
six microsecond digits only when the microsecond field is nonzero. -/
def isoformat (t : DateTime) : List Char :=
  pad4 t.year ++ '-' :: pad2 t.month ++ '-' :: pad2 t.day ++ 'T' :: pad2 t.hour ++
    ':' :: pad2 t.minute ++ ':' :: pad2 t.second ++
    (if t.microsecond = 0 then [] else '.' :: pad6 t.microsecond)

def val2 (a b : Char) : Nat := charDigit a * 10 + charDigit b

def val4 (a b c d : Char) : Nat :=
  ((charDigit a * 10 + charDigit b) * 10 + charDigit c) * 10 + charDigit d

def val6 (a b c d e f : Char) : Nat :=
  ((((charDigit a * 10 + charDigit b) * 10 + charDigit c) * 10 + charDigit d) * 10 +
    charDigit e) * 10 + charDigit f

/-- Python `datetime.fromisoformat` on the two shapes `isoformat` emits;
any other input raises, modeled by `none`. -/
def fromisoformat : List Char → Option DateTime
  | [y1, y2, y3, y4, a1, m1, m2, a2, d1, d2, a3, h1, h2, a4, n1, n2, a5, s1, s2] =>
    if a1 = '-' ∧ a2 = '-' ∧ a3 = 'T' ∧ a4 = ':' ∧ a5 = ':' ∧
        y1.isDigit ∧ y2.isDigit ∧ y3.isDigit ∧ y4.isDigit ∧ m1.isDigit ∧ m2.isDigit ∧
        d1.isDigit ∧ d2.isDigit ∧ h1.isDigit ∧ h2.isDigit ∧ n1.isDigit ∧ n2.isDigit ∧
        s1.isDigit ∧ s2.isDigit then
      some ⟨val4 y1 y2 y3 y4, val2 m1 m2, val2 d1 d2, val2 h1 h2, val2 n1 n2,
        val2 s1 s2, 0⟩
    else none
  | [y1, y2, y3, y4, a1, m1, m2, a2, d1, d2, a3, h1, h2, a4, n1, n2, a5, s1, s2, a6,
     u1, u2, u3, u4, u5, u6] =>
    if a1 = '-' ∧ a2 = '-' ∧ a3 = 'T' ∧ a4 = ':' ∧ a5 = ':' ∧ a6 = '.' ∧
        y1.isDigit ∧ y2.isDigit ∧ y3.isDigit ∧ y4.isDigit ∧ m1.isDigit ∧ m2.isDigit ∧
        d1.isDigit ∧ d2.isDigit ∧ h1.isDigit ∧ h2.isDigit ∧ n1.isDigit ∧ n2.isDigit ∧
        s1.isDigit ∧ s2.isDigit ∧ u1.isDigit ∧ u2.isDigit ∧ u3.isDigit ∧ u4.isDigit ∧
        u5.isDigit ∧ u6.isDigit then
      some ⟨val4 y1 y2 y3 y4, val2 m1 m2, val2 d1 d2, val2 h1 h2, val2 n1 n2,
        val2 s1 s2, val6 u1 u2 u3 u4 u5 u6⟩
    else none
  | _ => none

/-- One value of the `USER_COUNTERS` dict in calendar form, as serialized. -/
structure UserDataD where
  count : Nat
  resetTime : DateTime
  deriving DecidableEq

abbrev LedgerD := List (UserId × UserDataD)

/-- `save_counters` (bot.py lines 104-112): the structured data handed to
`json.dump`, with each timestamp rendered by `isoformat`. -/
def save_counters (l : LedgerD) : List (UserId × Nat × List Char) :=
  l.map (fun p => (p.1, p.2.count, isoformat p.2.resetTime))

/-- The startup load loop (bot.py lines 34-38): parse every serialized
timestamp back with `fromisoformat`; a parse failure raises, modeled by
`none`. -/
def load_counters : List (UserId × Nat × List Char) → Option LedgerD
  | [] => some []
  | (u, n, s) :: rest =>
    match fromisoformat s, load_counters rest with
    | some t, some l => some ((u, ⟨n, t⟩) :: l)
    | _, _ => none

/-! ## Basic lemmas about the dict model -/

theorem lookupUser_setUser_self (c : Counters) (u : UserId) (d : UserData) :
    lookupUser (setUser c u d) u = some d := by
  induction c with
  | nil => simp [setUser, lookupUser]
  | cons p rest ih =>
    obtain ⟨v, e⟩ := p
    by_cases h : v = u <;> simp [setUser, lookupUser, h, ih]

theorem mem_setUser {p : UserId × UserData} {u : UserId} {d : UserData} {c : Counters} :
    p ∈ setUser c u d → p = (u, d) ∨ p ∈ c := by
  induction c with
  | nil =>
    intro h
    simpa [setUser] using h
  | cons q rest ih =>
    obtain ⟨v, e⟩ := q
    intro h
    by_cases hv : v = u
    · simp only [setUser, if_pos hv, List.mem_cons] at h
      rcases h with h | h
      · exact Or.inl h
      · exact Or.inr (List.mem_cons_of_mem _ h)
    · simp only [setUser, if_neg hv, List.mem_cons] at h
      rcases h with h | h
      · exact Or.inr (h ▸ List.mem_cons_self _ _)
      · rcases ih h with h2 | h2
        · exact Or.inl h2
        · exact Or.inr (List.mem_cons_of_mem _ h2)

theorem lookupUser_mem {u : UserId} {d : UserData} {c : Counters} :
    lookupUser c u = some d → (u, d) ∈ c := by
  induction c with
  | nil =>
    intro h
    simp [lookupUser] at h
  | cons q rest ih =>
    obtain ⟨v, e⟩ := q
    intro h
    by_cases hv : v = u
    · simp only [lookupUser, if_pos hv] at h
      subst hv
      obtain rfl : e = d := by injection h
      exact List.mem_cons_self _ _
    · simp only [lookupUser, if_neg hv] at h
      exact List.mem_cons_of_mem _ (ih h)

/-! ## Lemmas about the admission check and the commit step -/

theorem check_user_limit_eq_none {c : Counters} {u : UserId} {now : Nat}
    (hl : lookupUser c u = none) :
    check_user_limit c u now = (true, setUser c u ⟨0, now + oneDay⟩) := by
  unfold check_user_limit
  rw [hl]

theorem check_user_limit_eq_some {c : Counters} {u : UserId} {now : Nat} {d : UserData}
    (hl : lookupUser c u = some d) :
    check_user_limit c u now =
      if d.resetTime ≤ now then (true, setUser c u ⟨0, now + oneDay⟩)
      else if DAILY_LIMIT ≤ d.count then (false, c) else (true, c) := by
  unfold check_user_limit
  rw [hl]

theorem check_admitted_lookup {c : Counters} {u : UserId} {now : Nat}
    (h : (check_user_limit c u now).1 = true) :
    ∃ d, lookupUser (check_user_limit c u now).2 u = some d ∧ d.count < DAILY_LIMIT := by
  cases hl : lookupUser c u with
  | none =>
    refine ⟨⟨0, now + oneDay⟩, ?_, by simp [DAILY_LIMIT]⟩
    rw [check_user_limit_eq_none hl]
    exact lookupUser_setUser_self c u _
  | some d =>
    rw [check_user_limit_eq_some hl] at h ⊢
    by_cases h1 : d.resetTime ≤ now
    · refine ⟨⟨0, now + oneDay⟩, ?_, by simp [DAILY_LIMIT]⟩
      rw [if_pos h1]
      exact lookupUser_setUser_self c u _
    · by_cases h2 : DAILY_LIMIT ≤ d.count
      · simp [h1, h2] at h
      · exact ⟨d, by simp [h1, h2, hl], by omega⟩

theorem mem_check_user_limit {p : UserId × UserData} {c : Counters} {u : UserId} {now : Nat}
    (h : p ∈ (check_user_limit c u now).2) :
    p = (u, ⟨0, now + oneDay⟩) ∨ p ∈ c := by
  cases hl : lookupUser c u with
  | none =>
    rw [check_user_limit_eq_none hl] at h
    exact mem_setUser h
  | some d =>
    rw [check_user_limit_eq_some hl] at h
    by_cases h1 : d.resetTime ≤ now
    · rw [if_pos h1] at h
      exact mem_setUser h
    · rw [if_neg h1] at h
      by_cases h2 : DAILY_LIMIT ≤ d.count <;> simp [h2] at h <;> exact Or.inr h

theorem check_rejected {c : Counters} {u : UserId} {now : Nat}
    (h : (check_user_limit c u now).1 = false) :
    (check_user_limit c u now).2 = c ∧
      ∃ d, lookupUser c u = some d ∧ now < d.resetTime ∧ DAILY_LIMIT ≤ d.count := by
  cases hl : lookupUser c u with
  | none => rw [check_user_limit_eq_none hl] at h; simp at h
  | some d =>
    rw [check_user_limit_eq_some hl] at h ⊢
    by_cases h1 : d.resetTime ≤ now
    · simp [h1] at h
    · by_cases h2 : DAILY_LIMIT ≤ d.count
      · exact ⟨by simp [h1, h2], d, rfl, by omega, h2⟩
      · simp [h1, h2] at h

theorem commitC_eq {c : Counters} {u : UserId} {d : UserData}
    (h : lookupUser c u = some d) :
    commitC c u = some (setUser c u ⟨d.count + 1, d.resetTime⟩) := by
  unfold commitC
  rw [h]

theorem commitC_none {c : Counters} {u : UserId}
    (h : lookupUser c u = none) : commitC c u = none := by
  unfold commitC
  rw [h]

/-! ## The three execution paths of the chat handler -/

theorem chat_rejected_eq {c : Counters} {tu : List UserId} {u : UserId} {msg : List Char}
    {now : Nat} {ai : Option (List Char)} {flushOk : Bool}
    (h : (check_user_limit c u now).1 = false) :
    chat c tu u msg now ai flushOk =
      some ⟨(check_user_limit c u now).2, tu, limitNotice, none, none, some limitNotice⟩ := by
  unfold chat chat_phase1
  simp [h]

theorem chat_cache_eq {c : Counters} {tu : List UserId} {u : UserId} {msg : List Char}
    {now : Nat} {ai : Option (List Char)} {flushOk : Bool} {v : List Char}
    (hadm : (check_user_limit c u now).1 = true)
    (hv : cacheLookup CACHE (pyStrip (pyLower msg)) = some v)
    (htr : u ∉ tu) :
    chat c tu u msg now ai flushOk =
      finishCommit (check_user_limit c u now).2 tu v none u flushOk := by
  unfold chat chat_phase1
  simp [hadm, hv, htr]

theorem chat_ai_eq {c : Counters} {tu : List UserId} {u : UserId} {msg : List Char}
    {now : Nat} {ai : Option (List Char)} {flushOk : Bool}
    (hadm : (check_user_limit c u now).1 = true)
    (hpath : u ∈ tu ∨ cacheLookup CACHE (pyStrip (pyLower msg)) = none) :
    chat c tu u msg now ai flushOk =
      chat_phase2 (check_user_limit c u now).2 tu u (decide (u ∈ tu))
        (if u ∈ tu then translateWrap ++ msg else msg) ai flushOk := by
  unfold chat chat_phase1
  rcases hpath with htr | hnc
  · cases hc : cacheLookup CACHE (pyStrip (pyLower msg)) <;> simp [hadm, htr, hc]
  · simp [hadm, hnc]

theorem chat_ai_full {c : Counters} {tu : List UserId} {u : UserId} {msg : List Char}
    {now : Nat} {ai : Option (List Char)} {flushOk : Bool}
    (hadm : (check_user_limit c u now).1 = true)
    (hpath : u ∈ tu ∨ cacheLookup CACHE (pyStrip (pyLower msg)) = none) :
    ∃ d, lookupUser (check_user_limit c u now).2 u = some d ∧ d.count < DAILY_LIMIT ∧
      chat c tu u msg now ai flushOk = some
        ⟨setUser (check_user_limit c u now).2 u ⟨d.count + 1, d.resetTime⟩,
         if u ∈ tu then tu.erase u else tu,
         fetch_chatgpt_reply ai,
         some (if u ∈ tu then translateWrap ++ msg else msg),
         if flushOk then
           some (setUser (check_user_limit c u now).2 u ⟨d.count + 1, d.resetTime⟩)
         else none,
         if flushOk then some (fetch_chatgpt_reply ai) else none⟩ := by
  obtain ⟨d, hd, hlt⟩ := check_admitted_lookup hadm
  refine ⟨d, hd, hlt, ?_⟩
  rw [chat_ai_eq hadm hpath]
  unfold chat_phase2 finishCommit
  rw [commitC_eq hd]
  by_cases hu : u ∈ tu <;> simp [hu]

theorem chat_cache_full {c : Counters} {tu : List UserId} {u : UserId} {msg : List Char}
    {now : Nat} {ai : Option (List Char)} {flushOk : Bool} {v : List Char}
    (hadm : (check_user_limit c u now).1 = true)
    (hv : cacheLookup CACHE (pyStrip (pyLower msg)) = some v)
    (htr : u ∉ tu) :
    ∃ d, lookupUser (check_user_limit c u now).2 u = some d ∧ d.count < DAILY_LIMIT ∧
      chat c tu u msg now ai flushOk = some
        ⟨setUser (check_user_limit c u now).2 u ⟨d.count + 1, d.resetTime⟩,
         tu, v, none,
         if flushOk then
           some (setUser (check_user_limit c u now).2 u ⟨d.count + 1, d.resetTime⟩)
         else none,
         if flushOk then some v else none⟩ := by
  obtain ⟨d, hd, hlt⟩ := check_admitted_lookup hadm
  refine ⟨d, hd, hlt, ?_⟩
  rw [chat_cache_eq hadm hv htr]
  unfold finishCommit
  rw [commitC_eq hd]

/-! ## Preservation of the quota bound under sequential processing -/

theorem chat_counters_bound {c : Counters} {tu : List UserId} {u : UserId} {msg : List Char}
    {now : Nat} {ai : Option (List Char)} {flushOk : Bool} {res : ChatResult}
    (hres : chat c tu u msg now ai flushOk = some res)
    (hinv : ∀ p ∈ c, p.2.count ≤ DAILY_LIMIT) :
    ∀ p ∈ res.counters, p.2.count ≤ DAILY_LIMIT := by
  by_cases hadm : (check_user_limit c u now).1 = true
  · have main : ∀ d : UserData, d.count < DAILY_LIMIT →
        ∀ p ∈ setUser (check_user_limit c u now).2 u ⟨d.count + 1, d.resetTime⟩,
          p.2.count ≤ DAILY_LIMIT := by
      intro d hd p hp
      rcases mem_setUser hp with rfl | hp2
      · simpa using hd
      · rcases mem_check_user_limit hp2 with rfl | hp3
        · simp [DAILY_LIMIT]
        · exact hinv p hp3
    by_cases htr : u ∈ tu
    · obtain ⟨d, hd, hlt, heq⟩ := @chat_ai_full c tu u msg now ai flushOk hadm (Or.inl htr)
      rw [heq] at hres
      obtain rfl := Option.some.inj hres
      exact main d hlt
    · cases hv : cacheLookup CACHE (pyStrip (pyLower msg)) with
      | some v =>
        obtain ⟨d, hd, hlt, heq⟩ := @chat_cache_full c tu u msg now ai flushOk v hadm hv htr
        rw [heq] at hres
        obtain rfl := Option.some.inj hres
        exact main d hlt
      | none =>
        obtain ⟨d, hd, hlt, heq⟩ := @chat_ai_full c tu u msg now ai flushOk hadm (Or.inr hv)
        rw [heq] at hres
        obtain rfl := Option.some.inj hres
        exact main d hlt
  · have hadm2 : (check_user_limit c u now).1 = false := by
      revert hadm
      cases (check_user_limit c u now).1 <;> simp
    rw [chat_rejected_eq hadm2] at hres
    obtain rfl := Option.some.inj hres
    intro p hp
    rcases mem_check_user_limit hp with rfl | hp2
    · simp [DAILY_LIMIT]
    · exact hinv p hp2

theorem chatStep_bound {s : Counters × List UserId} {e : Msg}
    (hinv : ∀ p ∈ s.1, p.2.count ≤ DAILY_LIMIT) :
    ∀ p ∈ (chatStep s e).1, p.2.count ≤ DAILY_LIMIT := by
  unfold chatStep
  cases hc : chat s.1 s.2 e.u e.text e.now e.ai e.flushOk with
  | none => simpa using hinv
  | some r => simpa using chat_counters_bound hc hinv

theorem foldl_chatStep_bound (es : List Msg) :
    ∀ s : Counters × List UserId, (∀ p ∈ s.1, p.2.count ≤ DAILY_LIMIT) →
      ∀ p ∈ (es.foldl chatStep s).1, p.2.count ≤ DAILY_LIMIT := by
  induction es with
  | nil =>
    intro s h
    simpa using h
  | cons e rest ih =>
    intro s h
    simpa only [List.foldl_cons] using ih _ (chatStep_bound h)

/-- C1 (amended): when messages are processed sequentially — each handler,
admission check through commit and flush, finishes before the next message
is handled, which is the framework default of one update at a time — every
record of the quota ledger keeps its committed count at most DAILY_LIMIT,
over any trace of messages from the initial empty state. -/
theorem quota_sequential_bound (es : List Msg) :
    ∀ p ∈ (runTrace es).1, p.2.count ≤ DAILY_LIMIT := by
  unfold runTrace
  exact foldl_chatStep_bound es ([], []) (by simp)

/-- Witness for the C1 amended theorem at a concrete one-message trace. -/
theorem quota_sequential_bound_witness :
    (("7", (⟨1, 500 + oneDay⟩ : UserData))).2.count ≤ DAILY_LIMIT :=
  quota_sequential_bound [⟨"7", "x".data, 500, none, true⟩] _ (by decide)

/-- C1 counterexample: the handler holds no per-user lock across the awaited
AI call, so two concurrent messages from the same user, interleaved so that
both admission checks run before either commit, are both admitted at count
49 and both committed: both replies are delivered and the window's count
reaches 51, exceeding DAILY_LIMIT = 50. -/
theorem quota_concurrent_race_cex :
    (interleavedTwoSame [("7", ⟨49, 1000⟩)] [] "7" ("a".data) ("b".data) 500 500 none none
        true true).map
      (fun p => (p.1.sent.isSome, p.2.sent.isSome, lookupUser p.2.counters "7")) =
      some (true, true, some ⟨51, 1000⟩) ∧ DAILY_LIMIT < 51 := by
  constructor
  · rfl
  · decide

/-- C2: the admission check follows exactly the documented case analysis:
no record creates a fresh one (count 0, reset in 24h) and admits; an expired
window replaces the record the same way and admits, and the subsequent
commit makes that window's count exactly 1; a full window rejects without
mutating anything; otherwise it admits without incrementing. -/
theorem check_user_limit_cases (c : Counters) (u : UserId) (now : Nat) :
    (lookupUser c u = none →
      check_user_limit c u now = (true, setUser c u ⟨0, now + oneDay⟩)) ∧
    (∀ d, lookupUser c u = some d → d.resetTime ≤ now →
      check_user_limit c u now = (true, setUser c u ⟨0, now + oneDay⟩) ∧
      commitC (setUser c u ⟨0, now + oneDay⟩) u =
        some (setUser (setUser c u ⟨0, now + oneDay⟩) u ⟨1, now + oneDay⟩) ∧
      lookupUser (setUser (setUser c u ⟨0, now + oneDay⟩) u ⟨1, now + oneDay⟩) u =
        some ⟨1, now + oneDay⟩) ∧
    (∀ d, lookupUser c u = some d → now < d.resetTime → DAILY_LIMIT ≤ d.count →
      check_user_limit c u now = (false, c)) ∧
    (∀ d, lookupUser c u = some d → now < d.resetTime → d.count < DAILY_LIMIT →
      check_user_limit c u now = (true, c)) := by
  refine ⟨?_, ?_, ?_, ?_⟩
  · intro hl
    exact check_user_limit_eq_none hl
  · intro d hl hexp
    refine ⟨by rw [check_user_limit_eq_some hl, if_pos hexp], ?_, ?_⟩
    · have h0 := lookupUser_setUser_self c u ⟨0, now + oneDay⟩
      simpa using commitC_eq h0
    · exact lookupUser_setUser_self _ u _
  · intro d hl hlive hfull
    rw [check_user_limit_eq_some hl, if_neg (by omega), if_pos hfull]
  · intro d hl hlive hroom
    rw [check_user_limit_eq_some hl, if_neg (by omega), if_neg (by omega)]

/-- Witness for C2 at concrete inputs, one per case. -/
theorem check_user_limit_cases_witness :
    check_user_limit [] "7" 5 = (true, setUser [] "7" ⟨0, 5 + oneDay⟩) ∧
    check_user_limit [("7", ⟨3, 4⟩)] "7" 5 = (true, setUser [("7", ⟨3, 4⟩)] "7" ⟨0, 5 + oneDay⟩) ∧
    check_user_limit [("7", ⟨50, 10⟩)] "7" 5 = (false, [("7", ⟨50, 10⟩)]) ∧
    check_user_limit [("7", ⟨3, 10⟩)] "7" 5 = (true, [("7", ⟨3, 10⟩)]) :=
  ⟨(check_user_limit_cases [] "7" 5).1 rfl,
   ((check_user_limit_cases [("7", ⟨3, 4⟩)] "7" 5).2.1 ⟨3, 4⟩ (by decide) (by decide)).1,
   (check_user_limit_cases [("7", ⟨50, 10⟩)] "7" 5).2.2.1 ⟨50, 10⟩ (by decide) (by decide)
     (by decide),
   (check_user_limit_cases [("7", ⟨3, 10⟩)] "7" 5).2.2.2 ⟨3, 10⟩ (by decide) (by decide)
     (by decide)⟩

/-! ## Lemmas about the translation-mode set -/

theorem not_mem_erase_self {u : UserId} {l : List UserId} (h : l.Nodup) : u ∉ l.erase u := by
  induction l with
  | nil => simp
  | cons a rest ih =>
    rcases List.nodup_cons.mp h with ⟨ha, hr⟩
    by_cases hau : a = u
    · subst hau
      rw [List.erase_cons_head]
      exact ha
    · rw [List.erase_cons_tail (by simpa using hau)]
      intro hm
      rcases List.mem_cons.mp hm with rfl | hm2
      · exact hau rfl
      · exact ih hr hm2

theorem mem_insertUser (u : UserId) (tu : List UserId) : u ∈ insertUser u tu := by
  by_cases h : u ∈ tu <;> simp [insertUser, h]

theorem translate_command_admitted {c : Counters} {tu : List UserId} {u : UserId} {now : Nat}
    (h : (check_user_limit c u now).1 = true) :
    translate_command c tu u now = ((check_user_limit c u now).2, insertUser u tu, translateAsk) := by
  unfold translate_command
  simp [h]

theorem translate_command_rejected {c : Counters} {tu : List UserId} {u : UserId} {now : Nat}
    (h : (check_user_limit c u now).1 = false) :
    translate_command c tu u now = ((check_user_limit c u now).2, tu, limitNotice) := by
  unfold translate_command
  simp [h]

/-- C3: for every admitted message that reaches the AI call (cache miss or
translation turn), a failed AI call still yields the fixed apology as the
delivered reply, still increments and flushes the user's quota count, and
still clears the translation-mode flag if it was set. -/
theorem ai_failure_still_commits {c : Counters} {tu : List UserId} {u : UserId}
    {msg : List Char} {now : Nat}
    (hnd : tu.Nodup)
    (hadm : (check_user_limit c u now).1 = true)
    (hpath : u ∈ tu ∨ cacheLookup CACHE (pyStrip (pyLower msg)) = none) :
    ∃ res, chat c tu u msg now none true = some res ∧
      res.reply = apology ∧ res.sent = some apology ∧
      res.flushed = some res.counters ∧
      (∃ d, lookupUser (check_user_limit c u now).2 u = some d ∧
        lookupUser res.counters u = some ⟨d.count + 1, d.resetTime⟩) ∧
      (u ∈ tu → u ∉ res.translateUsers) := by
  obtain ⟨d, hd, hlt, heq⟩ := @chat_ai_full c tu u msg now none true hadm hpath
  refine ⟨_, heq, rfl, rfl, rfl, ⟨d, hd, lookupUser_setUser_self _ u _⟩, ?_⟩
  intro htr
  simp only [if_pos htr]
  exact not_mem_erase_self hnd

/-- Witness for C3: empty ledger, user in translation mode, failing AI call. -/
theorem ai_failure_still_commits_witness :
    (["7"] : List UserId).Nodup ∧
    (∃ res, chat [] ["7"] "7" ("hi".data) 5 none true = some res ∧
      res.reply = apology ∧ res.sent = some apology ∧
      res.flushed = some res.counters ∧
      (∃ d, lookupUser (check_user_limit [] "7" 5).2 "7" = some d ∧
        lookupUser res.counters "7" = some ⟨d.count + 1, d.resetTime⟩) ∧
      ("7" ∈ (["7"] : List UserId) → "7" ∉ res.translateUsers)) :=
  ⟨by decide, ai_failure_still_commits (by decide) (by decide) (Or.inl (by decide))⟩

/-- C4: translation mode is one-shot: a user admitted by the translate
command enters the mode; the next admitted message from a user in the mode
goes to the AI with the translation-augmented prompt and clears the flag,
whatever the AI outcome; a user not in the mode is handled as ordinary chat
(cache hit answers without an AI call, otherwise the raw text is the
prompt). -/
theorem translate_mode_one_shot (c : Counters) (tu : List UserId) (u : UserId)
    (msg : List Char) (now : Nat) (ai : Option (List Char)) (flushOk : Bool)
    (hnd : tu.Nodup)
    (hadm : (check_user_limit c u now).1 = true) :
    u ∈ (translate_command c tu u now).2.1 ∧
    (u ∈ tu →
      ∃ res, chat c tu u msg now ai flushOk = some res ∧
        res.aiPrompt = some (translateWrap ++ msg) ∧ u ∉ res.translateUsers) ∧
    (u ∉ tu →
      ∃ res, chat c tu u msg now ai flushOk = some res ∧ res.translateUsers = tu ∧
        (∀ v, cacheLookup CACHE (pyStrip (pyLower msg)) = some v → res.aiPrompt = none) ∧
        (cacheLookup CACHE (pyStrip (pyLower msg)) = none → res.aiPrompt = some msg)) := by
  refine ⟨?_, ?_, ?_⟩
  · rw [translate_command_admitted hadm]
    exact mem_insertUser u tu
  · intro htr
    obtain ⟨d, hd, hlt, heq⟩ := @chat_ai_full c tu u msg now ai flushOk hadm (Or.inl htr)
    refine ⟨_, heq, ?_, ?_⟩
    · simp [htr]
    · simp only [if_pos htr]
      exact not_mem_erase_self hnd
  · intro htr
    cases hv : cacheLookup CACHE (pyStrip (pyLower msg)) with
    | some v =>
      obtain ⟨d, hd, hlt, heq⟩ := @chat_cache_full c tu u msg now ai flushOk v hadm hv htr
      exact ⟨_, heq, rfl, fun w hw => rfl, fun hn => absurd hn (by simp)⟩
    | none =>
      obtain ⟨d, hd, hlt, heq⟩ := @chat_ai_full c tu u msg now ai flushOk hadm (Or.inr hv)
      exact ⟨_, heq, by simp [htr], fun w hw => absurd hw (by simp), fun _ => by simp [htr]⟩

/-- Witness for C4: the translate command enters the mode, the next message
consumes it even though the AI call fails, the one after is ordinary chat. -/
theorem translate_mode_one_shot_witness :
    (["7"] : List UserId).Nodup ∧
    "7" ∈ (translate_command [] ["7"] "7" 5).2.1 ∧
    (∃ res, chat [] ["7"] "7" ("x".data) 5 none true = some res ∧
      res.aiPrompt = some (translateWrap ++ "x".data) ∧ "7" ∉ res.translateUsers) :=
  ⟨by decide,
   (translate_mode_one_shot [] ["7"] "7" ("x".data) 5 none true (by decide) (by decide)).1,
   (translate_mode_one_shot [] ["7"] "7" ("x".data) 5 none true (by decide)
       (by decide)).2.1 (by decide)⟩

/-- C5: an admitted message whose lowercased and trimmed text is a cache
trigger, from a user not in translation mode, is answered with exactly the
canned text and no AI call; while the user is in translation mode the cache
is bypassed and the AI is always called. -/
theorem cache_hit_no_ai (c : Counters) (tu : List UserId) (u : UserId)
    (msg : List Char) (now : Nat) (ai : Option (List Char))
    (hadm : (check_user_limit c u now).1 = true) :
    (∀ v, cacheLookup CACHE (pyStrip (pyLower msg)) = some v → u ∉ tu →
      ∃ res, chat c tu u msg now ai true = some res ∧
        res.reply = v ∧ res.sent = some v ∧ res.aiPrompt = none) ∧
    (u ∈ tu →
      ∃ res, chat c tu u msg now ai true = some res ∧
        res.aiPrompt = some (translateWrap ++ msg)) := by
  constructor
  · intro v hv htr
    obtain ⟨d, hd, hlt, heq⟩ := @chat_cache_full c tu u msg now ai true v hadm hv htr
    exact ⟨_, heq, rfl, rfl, rfl⟩
  · intro htr
    obtain ⟨d, hd, hlt, heq⟩ := @chat_ai_full c tu u msg now ai true hadm (Or.inl htr)
    refine ⟨_, heq, ?_⟩
    simp [htr]

/-- Witness for C5 at the spec's own example: a message spelled with spaces
and capitals hits the hello trigger. -/
theorem cache_hit_no_ai_witness :
    cacheLookup CACHE (pyStrip (pyLower ("  Hello  ".data))) =
      some ("Hello! How can I assist you today?".data) ∧
    (∃ res, chat [] [] "7" ("  Hello  ".data) 5 none true = some res ∧
      res.reply = "Hello! How can I assist you today?".data ∧
      res.sent = some ("Hello! How can I assist you today?".data) ∧
      res.aiPrompt = none) :=
  ⟨by decide,
   (cache_hit_no_ai [] [] "7" ("  Hello  ".data) 5 none (by decide)).1
     ("Hello! How can I assist you today?".data) (by decide) (by decide)⟩

/-! ## What sanitization achieves -/

theorem stripBold_cons_ne {b : Char} (hb : b ≠ '*') (rest : List Char) :
    stripBold (b :: rest) = b :: stripBold rest := by
  cases rest with
  | nil => rfl
  | cons c cs =>
    simp only [stripBold]
    rw [if_neg (fun h => hb h.1)]

theorem hasBold_stripBold (l : List Char) : hasBold (stripBold l) = false := by
  induction l using stripBold.induct with
  | case1 a b rest hab ih =>
    simp only [stripBold, if_pos hab]
    exact ih
  | case2 a b rest hab ih =>
    simp only [stripBold, if_neg hab]
    by_cases hb : b = '*'
    · have ha : a ≠ '*' := fun ha => hab ⟨ha, hb⟩
      cases hx : stripBold (b :: rest) with
      | nil => simp [hasBold]
      | cons c cs =>
        have hstep : hasBold (a :: c :: cs) = hasBold (c :: cs) := by
          simp only [hasBold]
          rw [if_neg (fun h => ha h.1)]
        rw [hstep, ← hx]
        exact ih
    · rw [stripBold_cons_ne hb]
      simp only [hasBold]
      rw [if_neg hab, ← stripBold_cons_ne hb]
      exact ih
  | case3 l h =>
    cases l with
    | nil => rfl
    | cons a tail =>
      cases tail with
      | nil => rfl
      | cons b r => exact absurd rfl (h a b r)

theorem mem_stripTagsF : ∀ (f : Nat) (cs : List Char) (x : Char),
    x ∈ stripTagsF f cs → x ∈ cs := by
  intro f
  induction f with
  | zero =>
    intro cs x hx
    cases cs with
    | nil => simp [stripTagsF] at hx
    | cons c rest => simpa [stripTagsF] using hx
  | succ g ih =>
    intro cs x hx
    cases cs with
    | nil => simp [stripTagsF] at hx
    | cons c rest =>
      by_cases hcond : c = '<' ∧ tagBody rest ≠ [] ∧ tagRest rest ≠ []
      · rw [stripTagsF, if_pos hcond] at hx
        have hsub : ((tagRest rest).tail).Sublist rest :=
          (List.tail_sublist _).trans (List.dropWhile_sublist _)
        exact List.mem_cons_of_mem _ (hsub.subset (ih _ x hx))
      · rw [stripTagsF, if_neg hcond] at hx
        rcases List.mem_cons.mp hx with rfl | hx2
        · exact List.mem_cons_self _ _
        · exact List.mem_cons_of_mem _ (ih _ x hx2)

theorem containsTag_stripTagsF : ∀ (f : Nat) (cs : List Char), cs.length ≤ f →
    containsTag (stripTagsF f cs) = false := by
  intro f
  induction f using Nat.strong_induction_on with
  | _ f IH =>
    intro cs hlen
    cases cs with
    | nil => cases f <;> simp [stripTagsF, containsTag]
    | cons c rest =>
      cases f with
      | zero => simp at hlen
      | succ g =>
        have hrest : rest.length ≤ g := by simpa using hlen
        by_cases hcond : c = '<' ∧ tagBody rest ≠ [] ∧ tagRest rest ≠ []
        · rw [stripTagsF, if_pos hcond]
          have hsub : ((tagRest rest).tail).Sublist rest :=
            (List.tail_sublist _).trans (List.dropWhile_sublist _)
          exact IH g (by omega) _ (le_trans hsub.length_le hrest)
        · rw [stripTagsF, if_neg hcond]
          by_cases hc : c = '<'
          · subst hc
            have hsplit : tagBody rest = [] ∨ tagRest rest = [] := by tauto
            rcases hsplit with hb | hb
            · cases rest with
              | nil =>
                cases g <;> simp [stripTagsF, containsTag, tagBody, tagRest]
              | cons r rs =>
                have hr : r = '>' := by
                  by_contra hne
                  have : (r != '>') = true := by simpa using hne
                  simp [tagBody, List.takeWhile_cons, this] at hb
                subst hr
                cases g with
                | zero => simp at hrest
                | succ g2 =>
                  rw [stripTagsF, if_neg (by simp)]
                  rw [containsTag, if_neg (by simp [tagBody, List.takeWhile_cons])]
                  rw [containsTag, if_neg (by simp)]
                  exact IH g2 (by omega) rs (by simpa using hrest)
            · have hno : ∀ x ∈ rest, (x != '>') = true :=
                List.dropWhile_eq_nil_iff.mp hb
              have hrest2 : tagRest (stripTagsF g rest) = [] := by
                refine List.dropWhile_eq_nil_iff.mpr ?_
                intro x hx
                exact hno x (mem_stripTagsF g rest x hx)
              rw [containsTag, if_neg (by simp [hrest2])]
              exact IH g (by omega) rest hrest
          · rw [containsTag, if_neg (fun h => hc h.1)]
            exact IH g (by omega) rest hrest

theorem containsTag_stripTags (cs : List Char) : containsTag (stripTags cs) = false :=
  containsTag_stripTagsF cs.length cs le_rfl

/-- C7: sanitization of an AI reply removes the two-star bold token pairs
and every HTML-like tag, then trims surrounding whitespace, in that order;
the documented example reduces accordingly.  Cleaning applies to every
successful AI reply, while a cached reply bypasses it: the canned text is
delivered verbatim. -/
theorem clean_response_spec :
    (∀ t, clean_response t = pyStrip (stripTags (stripBold t))) ∧
    (∀ t, hasBold (stripBold t) = false) ∧
    (∀ t, containsTag (stripTags t) = false) ∧
    clean_response ("**Hi** <b>there</b>".data) = "Hi there".data ∧
    (∀ content, fetch_chatgpt_reply (some content) = clean_response content) ∧
    (∀ c tu u msg now ai v, (check_user_limit c u now).1 = true →
      cacheLookup CACHE (pyStrip (pyLower msg)) = some v → u ∉ tu →
      ∃ res, chat c tu u msg now ai true = some res ∧ res.reply = v) := by
  refine ⟨fun t => rfl, hasBold_stripBold, containsTag_stripTags, by decide, fun t => rfl, ?_⟩
  intro c tu u msg now ai v hadm hv htr
  obtain ⟨d, hd, hlt, heq⟩ := @chat_cache_full c tu u msg now ai true v hadm hv htr
  exact ⟨_, heq, rfl⟩

/-- Witness for C7: cached path delivers the canned text verbatim. -/
theorem clean_response_spec_witness :
    (check_user_limit [] "7" 5).1 = true ∧
    cacheLookup CACHE (pyStrip (pyLower ("hi".data))) =
      some ("Hello! How can I assist you today?".data) ∧
    (∃ res, chat [] [] "7" ("hi".data) 5 none true = some res ∧
      res.reply = "Hello! How can I assist you today?".data) :=
  ⟨by decide, by decide,
   clean_response_spec.2.2.2.2.2 [] [] "7" ("hi".data) 5 none
     ("Hello! How can I assist you today?".data) (by decide) (by decide) (by decide)⟩

/-! ## Round trip of the serialized timestamps -/

theorem charDigit_digitChar {d : Nat} (h : d < 10) : charDigit (digitChar d) = d := by
  interval_cases d <;> decide

theorem isDigit_digitChar {d : Nat} (h : d < 10) : (digitChar d).isDigit = true := by
  interval_cases d <;> decide

theorem charDigit_mod (n : Nat) : charDigit (digitChar (n % 10)) = n % 10 :=
  charDigit_digitChar (Nat.mod_lt _ (by norm_num))

theorem isDigit_mod (n : Nat) : (digitChar (n % 10)).isDigit = true :=
  isDigit_digitChar (Nat.mod_lt _ (by norm_num))

theorem fromisoformat_isoformat {t : DateTime} (h : t.Valid) :
    fromisoformat (isoformat t) = some t := by
  obtain ⟨y, mo, dy, hh, mi, ss, us⟩ := t
  simp only [DateTime.Valid] at h
  obtain ⟨h1, h2, h3, h4, h5, h6, h7, h8, h9, h10⟩ := h
  by_cases hus : us = 0
  · subst hus
    simp only [isoformat, pad4, pad2, pad6, if_pos, List.cons_append, List.nil_append,
      List.append_nil]
    rw [fromisoformat]
    rw [if_pos (by simp [isDigit_mod])]
    simp only [val4, val2, charDigit_mod, Option.some.injEq, DateTime.mk.injEq, and_true]
    omega
  · simp only [isoformat, pad4, pad2, pad6, if_neg hus, List.cons_append, List.nil_append,
      List.append_nil]
    rw [fromisoformat]
    rw [if_pos (by simp [isDigit_mod])]
    simp only [val4, val2, val6, charDigit_mod, Option.some.injEq, DateTime.mk.injEq, and_true]
    omega

/-- C6: persistence round-trips: serializing the ledger and parsing it back
yields an equal ledger — every count and every timestamp is recovered
exactly, the timestamps passing through their ISO-8601 text form. -/
theorem counters_roundtrip : ∀ L : LedgerD, (∀ p ∈ L, p.2.resetTime.Valid) →
    load_counters (save_counters L) = some L := by
  intro L
  induction L with
  | nil => intro _; rfl
  | cons p rest ih =>
    intro h
    obtain ⟨u, d⟩ := p
    have hd : d.resetTime.Valid := h (u, d) (List.mem_cons_self _ _)
    have hr : ∀ q ∈ rest, q.2.resetTime.Valid := fun q hq => h q (List.mem_cons_of_mem _ hq)
    simp only [save_counters, List.map_cons] at ih ⊢
    rw [load_counters, fromisoformat_isoformat hd, ih hr]

/-- Witness for C6 at a concrete ledger with a microsecond timestamp. -/
theorem counters_roundtrip_witness :
    (∀ p ∈ ([("7", ⟨3, ⟨2024, 5, 17, 12, 30, 0, 123456⟩⟩)] : LedgerD), p.2.resetTime.Valid) ∧
    load_counters (save_counters [("7", ⟨3, ⟨2024, 5, 17, 12, 30, 0, 123456⟩⟩)]) =
      some [("7", ⟨3, ⟨2024, 5, 17, 12, 30, 0, 123456⟩⟩)] :=
  ⟨by decide, counters_roundtrip _ (by decide)⟩

/-- C8 counterexample: with an existing record and a failing flush, the
handler increments the in-memory count but then raises inside save_counters
before reply_text runs: no reply reaches the user, refuting the claim that
the user still receives the reply for that message. -/
theorem flush_failure_no_reply_cex :
    (chat [("7", ⟨0, 1000⟩)] [] "7" ("x".data) 500 none false).map
      (fun r => (r.sent, r.flushed, lookupUser r.counters "7")) =
      some (none, none, some ⟨1, 1000⟩) := by
  rfl

/-- C8 (amended): a write failure during the flush does not crash the
process — the exception leaves the handler and is logged by the
application-level error handler — and the in-memory ledger, already
incremented, stays authoritative; but the reply for that message is not
delivered to the user, because sending happens after the flush. -/
theorem flush_failure_state {c : Counters} {tu : List UserId} {u : UserId}
    {msg : List Char} {now : Nat} {ai : Option (List Char)}
    (hadm : (check_user_limit c u now).1 = true)
    (hpath : u ∈ tu ∨ cacheLookup CACHE (pyStrip (pyLower msg)) = none) :
    ∃ res, chat c tu u msg now ai false = some res ∧
      res.sent = none ∧ res.flushed = none ∧
      (∃ d, lookupUser (check_user_limit c u now).2 u = some d ∧
        lookupUser res.counters u = some ⟨d.count + 1, d.resetTime⟩) := by
  obtain ⟨d, hd, hlt, heq⟩ := @chat_ai_full c tu u msg now ai false hadm hpath
  exact ⟨_, heq, rfl, rfl, d, hd, lookupUser_setUser_self _ u _⟩

/-- Witness for the C8 amended theorem at a concrete input. -/
theorem flush_failure_state_witness :
    (check_user_limit [("7", ⟨0, 1000⟩)] "7" 500).1 = true ∧
    (∃ res, chat [("7", ⟨0, 1000⟩)] [] "7" ("x".data) 500 none false = some res ∧
      res.sent = none ∧ res.flushed = none ∧
      (∃ d, lookupUser (check_user_limit [("7", ⟨0, 1000⟩)] "7" 500).2 "7" = some d ∧
        lookupUser res.counters "7" = some ⟨d.count + 1, d.resetTime⟩)) :=
  ⟨by decide, flush_failure_state (by decide) (Or.inr (by decide))⟩

/-- C9: the commit step increments the existing record's count by one, and
in the pipeline the durable flush of the updated ledger follows it;
committing for a user with no record raises — the invalid-state error. -/
theorem commit_spec (c : Counters) (u : UserId) :
    (∀ d, lookupUser c u = some d →
      commitC c u = some (setUser c u ⟨d.count + 1, d.resetTime⟩) ∧
      lookupUser (setUser c u ⟨d.count + 1, d.resetTime⟩) u = some ⟨d.count + 1, d.resetTime⟩) ∧
    (lookupUser c u = none → commitC c u = none) ∧
    (∀ tu msg now ai, (check_user_limit c u now).1 = true →
      (u ∈ tu ∨ cacheLookup CACHE (pyStrip (pyLower msg)) = none) →
      ∃ res, chat c tu u msg now ai true = some res ∧ res.flushed = some res.counters) := by
  refine ⟨?_, commitC_none, ?_⟩
  · intro d hd
    exact ⟨commitC_eq hd, lookupUser_setUser_self _ u _⟩
  · intro tu msg now ai hadm hpath
    obtain ⟨d, hd, hlt, heq⟩ := @chat_ai_full c tu u msg now ai true hadm hpath
    exact ⟨_, heq, rfl⟩

/-- Witness for C9: a commit on an existing record, and one on a missing
record. -/
theorem commit_spec_witness :
    commitC [("7", ⟨3, 9⟩)] "7" = some (setUser [("7", ⟨3, 9⟩)] "7" ⟨4, 9⟩) ∧
    commitC [] "7" = none :=
  ⟨((commit_spec [("7", ⟨3, 9⟩)] "7").1 ⟨3, 9⟩ (by decide)).1,
   (commit_spec [] "7").2.1 rfl⟩

/-- C10: the translate command is quota-gated with the quota check's side
effects: at the limit inside a live window it replies with the notice and
does not enter translation mode, mutating nothing; otherwise it enters the
mode, creating a fresh record (count 0, reset in 24h) for an unknown user
or resetting an expired one, and commits no count. -/
theorem translate_command_spec (c : Counters) (tu : List UserId) (u : UserId) (now : Nat) :
    (∀ d, lookupUser c u = some d → now < d.resetTime → DAILY_LIMIT ≤ d.count →
      translate_command c tu u now = (c, tu, limitNotice)) ∧
    (lookupUser c u = none →
      translate_command c tu u now =
        (setUser c u ⟨0, now + oneDay⟩, insertUser u tu, translateAsk) ∧
      u ∈ insertUser u tu ∧
      lookupUser (setUser c u ⟨0, now + oneDay⟩) u = some ⟨0, now + oneDay⟩) ∧
    (∀ d, lookupUser c u = some d → d.resetTime ≤ now →
      translate_command c tu u now =
        (setUser c u ⟨0, now + oneDay⟩, insertUser u tu, translateAsk) ∧
      u ∈ insertUser u tu ∧
      lookupUser (setUser c u ⟨0, now + oneDay⟩) u = some ⟨0, now + oneDay⟩) ∧
    (∀ d, lookupUser c u = some d → now < d.resetTime → d.count < DAILY_LIMIT →
      translate_command c tu u now = (c, insertUser u tu, translateAsk) ∧
      u ∈ insertUser u tu) := by
  refine ⟨?_, ?_, ?_, ?_⟩
  · intro d hd hlive hfull
    have hf : check_user_limit c u now = (false, c) := by
      rw [check_user_limit_eq_some hd, if_neg (by omega), if_pos hfull]
    rw [translate_command_rejected (by rw [hf]), hf]
  · intro hl
    have ht : check_user_limit c u now = (true, setUser c u ⟨0, now + oneDay⟩) :=
      check_user_limit_eq_none hl
    rw [translate_command_admitted (by rw [ht]), ht]
    exact ⟨rfl, mem_insertUser u tu, lookupUser_setUser_self _ u _⟩
  · intro d hd hexp
    have ht : check_user_limit c u now = (true, setUser c u ⟨0, now + oneDay⟩) := by
      rw [check_user_limit_eq_some hd, if_pos hexp]
    rw [translate_command_admitted (by rw [ht]), ht]
    exact ⟨rfl, mem_insertUser u tu, lookupUser_setUser_self _ u _⟩
  · intro d hd hlive hroom
    have ht : check_user_limit c u now = (true, c) := by
      rw [check_user_limit_eq_some hd, if_neg (by omega), if_neg (by omega)]
    rw [translate_command_admitted (by rw [ht]), ht]
    exact ⟨rfl, mem_insertUser u tu⟩

/-- Witness for C10 at concrete inputs, one per case. -/
theorem translate_command_spec_witness :
    translate_command [("7", ⟨50, 10⟩)] [] "7" 5 = ([("7", ⟨50, 10⟩)], [], limitNotice) ∧
    (translate_command [] [] "7" 5 =
      (setUser [] "7" ⟨0, 5 + oneDay⟩, insertUser "7" [], translateAsk) ∧
      "7" ∈ insertUser "7" ([] : List UserId) ∧
      lookupUser (setUser [] "7" ⟨0, 5 + oneDay⟩) "7" = some ⟨0, 5 + oneDay⟩) ∧
    (translate_command [("7", ⟨3, 4⟩)] [] "7" 5 =
      (setUser [("7", ⟨3, 4⟩)] "7" ⟨0, 5 + oneDay⟩, insertUser "7" [], translateAsk) ∧
      "7" ∈ insertUser "7" ([] : List UserId) ∧
      lookupUser (setUser [("7", ⟨3, 4⟩)] "7" ⟨0, 5 + oneDay⟩) "7" = some ⟨0, 5 + oneDay⟩) ∧
    (translate_command [("7", ⟨3, 10⟩)] [] "7" 5 =
      ([("7", ⟨3, 10⟩)], insertUser "7" [], translateAsk) ∧
      "7" ∈ insertUser "7" ([] : List UserId)) :=
  ⟨(translate_command_spec [("7", ⟨50, 10⟩)] [] "7" 5).1 ⟨50, 10⟩ (by decide) (by decide)
     (by decide),
   (translate_command_spec [] [] "7" 5).2.1 rfl,
   (translate_command_spec [("7", ⟨3, 4⟩)] [] "7" 5).2.2.1 ⟨3, 4⟩ (by decide) (by decide),
   (translate_command_spec [("7", ⟨3, 10⟩)] [] "7" 5).2.2.2 ⟨3, 10⟩ (by decide) (by decide)
     (by decide)⟩
